import Mathlib

set_option maxHeartbeats 1000000

/-!
A verification development for the Exchange Synchronization Core, against its
source in src/exchange/rpc.go.  Go functions are shallowly embedded as total
Lean functions; a Go `(value, error)` pair becomes `GoResult`, a Go pointer
that may be nil becomes `Option`, and the Go runtime panic raised by a nil
pointer dereference becomes the `GoResult.nilPanic` constructor.  The version
and range machinery of the policy package (policy/version.go) is not among the
sources, so it is modelled from the spec where marked.
-/

/-! ### Go string primitives (strings.Compare, strings.Contains, strings.ToLower). -/

/-- Models Go strings.Compare, which is byte-wise lexicographic; version strings
are ASCII, where byte-wise and character-code-wise comparison coincide. -/
def goCmpChars : List Char → List Char → Int
  | [], [] => 0
  | [], _ :: _ => -1
  | _ :: _, [] => 1
  | a :: restA, b :: restB =>
    if a.toNat < b.toNat then -1
    else if b.toNat < a.toNat then 1
    else goCmpChars restA restB

/-- Models strings.Compare on whole strings (rpc.go:690, 761). -/
def stringsCompare (a b : String) : Int := goCmpChars a.toList b.toList

/-- Whether the first code list is a leading segment of the second. -/
def isPrefixN : List Nat → List Nat → Bool
  | [], _ => true
  | _ :: _, [] => false
  | a :: restA, b :: restB => a == b && isPrefixN restA restB

/-- Whether the first code list occurs contiguously inside the second
(Go strings.Contains). -/
def isSubstrN (pat : List Nat) : List Nat → Bool
  | [] => isPrefixN pat []
  | c :: rest => isPrefixN pat (c :: rest) || isSubstrN pat rest

/-- A string as its character-code list. -/
def strCodes (s : String) : List Nat := s.toList.map (fun c => c.toNat)

/-- ASCII lower-casing of one character code (Go strings.ToLower on the ASCII
range, the only range exercised by the error-message markers). -/
def lowerCode (n : Nat) : Nat := if 65 ≤ n ∧ n ≤ 90 then n + 32 else n

/-- A string as its lower-cased character-code list. -/
def strCodesLower (s : String) : List Nat := (strCodes s).map lowerCode

/-- Models strings.Contains (no case folding). -/
def strContains (s pat : String) : Bool := isSubstrN (strCodes pat) (strCodes s)

/-- Models isTimeout (rpc.go:996-998): the lower-cased error text must contain
both substrings time and out.  The two patterns are already lower case. -/
def isTimeout (e : String) : Bool :=
  isSubstrN (strCodes ("time")) (strCodesLower e) &&
    isSubstrN (strCodes ("out")) (strCodesLower e)

/-! ### Versions and version ranges.

The version machinery lives in the policy package (policy/version.go), which is
referenced by rpc.go but is not among the sources; every definition below that
is marked "Modelled from the spec" follows what the spec describes. -/

/-- Splits a character list on a separator character. -/
def splitOnChar (sep : Char) : List Char → List (List Char)
  | [] => [[]]
  | c :: rest =>
    if c = sep then [] :: splitOnChar sep rest
    else
      match splitOnChar sep rest with
      | s :: ss => (c :: s) :: ss
      | [] => [[c]]

/-- One dotted segment as a number: non-empty, decimal digits only. -/
def parseSeg (cs : List Char) : Option Nat :=
  match cs with
  | [] => none
  | _ =>
    cs.foldl
      (fun acc c =>
        match acc with
        | none => none
        | some n => if c.isDigit then some (n * 10 + (c.toNat - 48)) else none)
      (some 0)

/-- All segments as numbers, or none if any segment is malformed. -/
def parseSegList : List (List Char) → Option (List Nat)
  | [] => some []
  | s :: ss =>
    match parseSeg s, parseSegList ss with
    | some n, some ns => some (n :: ns)
    | _, _ => none

/-- Modelled from the spec: a version is a dotted numeric string
(the notion of policy.IsVersionString); parses it to its numeric segments. -/
def parseVersionSegs (s : String) : Option (List Nat) :=
  parseSegList (splitOnChar ('.') s.toList)

/-- Modelled from the spec: policy.IsVersionString. -/
def IsVersionString (s : String) : Bool := (parseVersionSegs s).isSome

/-- Whether every segment is zero, so that missing trailing segments compare
equal to explicit zeros. -/
def allZeroSegs : List Nat → Bool
  | [] => true
  | x :: xs => x == 0 && allZeroSegs xs

/-- Modelled from the spec: cmp — segment-wise numeric dotted-version ordering,
left to right, missing trailing segments read as zero. -/
def cmpSegs : List Nat → List Nat → Ordering
  | [], ys => if allZeroSegs ys then Ordering.eq else Ordering.lt
  | x :: xs, [] => if allZeroSegs (x :: xs) then Ordering.eq else Ordering.gt
  | x :: xs, y :: ys =>
    if x < y then Ordering.lt
    else if y < x then Ordering.gt
    else cmpSegs xs ys

/-- Modelled from the spec: a parsed version range — lower bound, optional upper
bound (none is INFINITY), and whether each end is inclusive. -/
structure VersionRange where
  lo : List Nat
  hi : Option (List Nat)
  loInc : Bool
  hiInc : Bool
deriving DecidableEq

def dropLeadingSpaces : List Char → List Char
  | [] => []
  | c :: rest => if c = ' ' then dropLeadingSpaces rest else c :: rest

def trimSpaces (cs : List Char) : List Char :=
  dropLeadingSpaces ((dropLeadingSpaces cs.reverse).reverse)

/-- Modelled from the spec: a full interval expression such as
[1.2.3,4.5.6) or [4.5.6, INFINITY), with an open or closed bracket at each
end.  Returns none for anything else (in particular for a bare version). -/
def parseInterval (s : String) : Option VersionRange :=
  match s.toList with
  | [] => none
  | c :: rest =>
    if c = '[' ∨ c = '(' then
      match rest.getLast? with
      | none => none
      | some cl =>
        if cl = ']' ∨ cl = ')' then
          match splitOnChar (',') rest.dropLast with
          | [loCs, hiCs] =>
            match parseSegList (splitOnChar ('.') (trimSpaces loCs)) with
            | none => none
            | some lo =>
              if trimSpaces hiCs = ("INFINITY").toList then
                some ⟨lo, none, c = '[', cl = ']'⟩
              else
                match parseSegList (splitOnChar ('.') (trimSpaces hiCs)) with
                | none => none
                | some hi => some ⟨lo, some hi, c = '[', cl = ']'⟩
          | _ => none
        else none
    else none

/-- Modelled from the spec: policy.IsVersionExpression — exactly the full
interval expressions; a valid input is a version or an expression, never
both. -/
def IsVersionExpression (s : String) : Bool := (parseInterval s).isSome

/-- Modelled from the spec: policy.Version_Expression_Factory — a bare version
v parses to [v, INFINITY); a full expression parses as written. -/
def Version_Expression_Factory (s : String) : Option VersionRange :=
  match parseVersionSegs s with
  | some segs => some ⟨segs, none, true, false⟩
  | none => parseInterval s

/-- Modelled from the spec: Version_Expression.Is_within_range — none when the
queried string is not a valid version (the Go method returns an error then). -/
def Is_within_range (r : VersionRange) (v : String) : Option Bool :=
  match parseVersionSegs v with
  | none => none
  | some segs =>
    let lowOk : Bool :=
      if r.loInc then !(cmpSegs r.lo segs == Ordering.gt)
      else cmpSegs r.lo segs == Ordering.lt
    let highOk : Bool :=
      match r.hi with
      | none => true
      | some h =>
        if r.hiInc then !(cmpSegs segs h == Ordering.gt)
        else cmpSegs segs h == Ordering.lt
    some (lowOk && highOk)

/-! ### Data model (rpc.go:507-611, 824-833, 328-333).  Only the JSON fields
are kept; the Go zero value of each struct is the all-empty record. -/

structure APISpec where
  specRef : String
  org : String
  version : String
  arch : String
deriving DecidableEq

structure UserInput where
  name : String
  label : String
  inputType : String
  defaultValue : String
deriving DecidableEq

structure WorkloadDeployment where
  deployment : String
  deploymentSignature : String
  torrent : String
deriving DecidableEq

structure WorkloadDefinition where
  owner : String
  label : String
  description : String
  workloadUrl : String
  version : String
  arch : String
  downloadUrl : String
  apiSpecs : List APISpec
  userInputs : List UserInput
  workloads : List WorkloadDeployment
  lastUpdated : String
deriving DecidableEq

structure HardwareMatch where
  usbDeviceIds : String
  devFiles : String
deriving DecidableEq

structure MicroserviceDefinition where
  owner : String
  label : String
  description : String
  specRef : String
  version : String
  arch : String
  sharable : String
  downloadUrl : String
  matchHardware : HardwareMatch
  userInputs : List UserInput
  workloads : List WorkloadDeployment
  lastUpdated : String
deriving DecidableEq

/-- The Go zero value of WorkloadDefinition (what `var resWDef` declares at
rpc.go:684). -/
def zeroWorkloadDefinition : WorkloadDefinition :=
  ⟨"", "", "", "", "", "", "", [], [], [], ""⟩

/-- The Go zero value of MicroserviceDefinition (rpc.go:755). -/
def zeroMicroserviceDefinition : MicroserviceDefinition :=
  ⟨"", "", "", "", "", "", "", "", ⟨"", ""⟩, [], [], ""⟩

structure Organization where
  label : String
  description : String
  lastUpdated : String
deriving DecidableEq

structure BlockchainDef where
  description : String
  definedBy : String
  details : String
  lastUpdated : String
deriving DecidableEq

/-- The outcome of a Go call returning (value, error): ok with the value, a
non-nil error, or a runtime panic from dereferencing a nil pointer. -/
inductive GoResult (α : Type) where
  | ok (v : α)
  | err (msg : String)
  | nilPanic
deriving DecidableEq

/-! ### Definition lookup (rpc.go:613-772). -/

/-- Models getSearchVersion (rpc.go:613-627): empty or a full range expression
searches all versions; a valid specific version searches that version; anything
else is an error. -/
def getSearchVersion (version : String) : Except String String :=
  if version = "" ∨ IsVersionExpression version = true then Except.ok ("")
  else if IsVersionString version = true then Except.ok version
  else Except.error (("input version ") ++ version ++ (" is not a valid version string"))

/-- Models the in-range selection loop shared by GetWorkload (rpc.go:683-695)
and GetMicroservice (rpc.go:754-766): walk the fetched definitions, keep the
one whose version string is highest by strings.Compare among those in range.
`highest` starts as the empty string and `res` as the Go zero value. -/
def selectHighest {α : Type} (ver : α → String) (r : VersionRange) :
    List α → String → α → Except String α
  | [], _, res => Except.ok res
  | d :: ds, highest, res =>
    match Is_within_range r (ver d) with
    | none =>
      Except.error (("unable to verify that ") ++ ver d ++ (" is within the range"))
    | some true =>
      if stringsCompare highest (ver d) = -1 then selectHighest ver r ds (ver d) d
      else selectHighest ver r ds highest res
    | some false => selectHighest ver r ds highest res

/-- Models the successful-response processing of GetWorkload (rpc.go:657-698).
With a specific version exactly one result is demanded; with a range, an empty
response returns a nil definition, and otherwise the highest in-range
definition is selected (note: the selection yields the zero value when no
definition is in range).  A failed Version_Expression_Factory leaves the Go
range pointer nil, so the subsequent method call is a nil dereference. -/
def processWorkloads (searchVersion wVersion : String) (defs : List WorkloadDefinition) :
    GoResult (Option WorkloadDefinition) :=
  if searchVersion ≠ "" then
    match defs with
    | [d] => GoResult.ok (some d)
    | _ =>
      GoResult.err (("expecting 1 result in GET workloads response, got ") ++
        toString defs.length)
  else if defs.length = 0 then GoResult.ok none
  else
    match Version_Expression_Factory (if wVersion = "" then "0.0.0" else wVersion) with
    | none => GoResult.nilPanic
    | some r =>
      match selectHighest (fun d => d.version) r defs ("") zeroWorkloadDefinition with
      | Except.error e => GoResult.err e
      | Except.ok d => GoResult.ok (some d)

/-- The range path of GetMicroservice (rpc.go:747-768) given the parsed range:
select the highest in-range definition.  Unlike GetWorkload there is no
empty-response check, so the result is never a nil definition — when nothing is
in range (or nothing was fetched) the Go zero value is returned. -/
def GetMicroserviceForRange (r : VersionRange) (defs : List MicroserviceDefinition) :
    GoResult (Option MicroserviceDefinition) :=
  match selectHighest (fun d => d.version) r defs ("") zeroMicroserviceDefinition with
  | Except.error e => GoResult.err e
  | Except.ok d => GoResult.ok (some d)

/-- Models the successful-response processing of GetMicroservice
(rpc.go:730-769). -/
def processMicroservices (searchVersion mVersion : String) (defs : List MicroserviceDefinition) :
    GoResult (Option MicroserviceDefinition) :=
  if searchVersion ≠ "" then
    match defs with
    | [d] => GoResult.ok (some d)
    | _ =>
      GoResult.err (("expecting 1 result in GET microservces response, got ") ++
        toString defs.length)
  else
    match Version_Expression_Factory (if mVersion = "" then "0.0.0" else mVersion) with
    | none => GoResult.nilPanic
    | some r => GetMicroserviceForRange r defs

/-- Models GetWorkload (rpc.go:629-701) applied to one successful Exchange
response, the fetched definitions given as a list (Go iterates a map whose
iteration order is arbitrary; every claim below is order-insensitive). -/
def GetWorkloadOnce (wVersion : String) (defs : List WorkloadDefinition) :
    GoResult (Option WorkloadDefinition) :=
  match getSearchVersion wVersion with
  | Except.error e => GoResult.err e
  | Except.ok sv => processWorkloads sv wVersion defs

/-- Models GetMicroservice (rpc.go:703-772) applied to one successful Exchange
response. -/
def GetMicroserviceOnce (mVersion : String) (defs : List MicroserviceDefinition) :
    GoResult (Option MicroserviceDefinition) :=
  match getSearchVersion mVersion with
  | Except.error e => GoResult.err e
  | Except.ok sv => processMicroservices sv mVersion defs

/-! ### WorkloadResolver (rpc.go:774-821). -/

structure APISpecification where
  specRef : String
  org : String
  version : String
  arch : String
deriving DecidableEq

/-- Modelled from the spec: policy.APISpecification_Factory builds the
(specRef, org, version, arch) dependency record returned to the caller. -/
def APISpecification_Factory (specRef org version arch : String) : APISpecification :=
  ⟨specRef, org, version, arch⟩

/-- The error of rpc.go:786.  The source renders the whole workload struct via
its String() method; the model renders its URL — the claims below concern only
that an error is returned, not its exact text. -/
def workloadsArityMsg (w : WorkloadDefinition) : String :=
  ("expecting 1 element in the workloads array of ") ++ w.workloadUrl ++
    (", have ") ++ toString w.workloads.length

/-- Models the dependency-resolution loop of WorkloadResolver (rpc.go:796-811).
The source passes vExp.Get_expression() — the string form of the parsed range —
to GetMicroservice, which re-parses it back into vExp; the model passes the
parsed range directly to the shared range path.  The `ms == nil` guard of
rpc.go:806 is kept as the `GoResult.ok none` arm. -/
def resolveDeps (msDefs : APISpec → List MicroserviceDefinition) :
    List APISpec → GoResult Unit
  | [] => GoResult.ok ()
  | spec :: rest =>
    match Version_Expression_Factory spec.version with
    | none =>
      GoResult.err (("unable to create version expression from ") ++ spec.version)
    | some vExp =>
      match GetMicroserviceForRange vExp (msDefs spec) with
      | GoResult.err e => GoResult.err e
      | GoResult.nilPanic => GoResult.nilPanic
      | GoResult.ok none =>
        GoResult.err (("unable to find microservice ") ++ spec.specRef)
      | GoResult.ok (some _) => resolveDeps msDefs rest

/-- Models WorkloadResolver (rpc.go:777-821): fetch the workload (the response
to its query given as `wDefs`), demand exactly one element in its deployment
array, resolve each apiSpec dependency (the response to each dependency query
given by `msDefs`), and return the dependency list.  The resolveMicroservices flag of the source (rpc.go:778) is constantly true.  When GetWorkload
returns a nil definition with no error, rpc.go:785 reads workload.Workloads
through the nil pointer: GoResult.nilPanic. -/
def WorkloadResolverOnce (wVersion : String) (wDefs : List WorkloadDefinition)
    (msDefs : APISpec → List MicroserviceDefinition) : GoResult (List APISpecification) :=
  match GetWorkloadOnce wVersion wDefs with
  | GoResult.err e => GoResult.err e
  | GoResult.nilPanic => GoResult.nilPanic
  | GoResult.ok none => GoResult.nilPanic
  | GoResult.ok (some w) =>
    if w.workloads.length ≠ 1 then GoResult.err (workloadsArityMsg w)
    else
      match resolveDeps msDefs w.apiSpecs with
      | GoResult.err e => GoResult.err e
      | GoResult.nilPanic => GoResult.nilPanic
      | GoResult.ok _ =>
        GoResult.ok
          (w.apiSpecs.map (fun s => APISpecification_Factory s.specRef s.org s.version s.arch))

/-! ### InvokeExchange (rpc.go:867-994). -/

/-- What the HTTP round trip produced: httpClient.Do failed with an error, or a
response with a status code and a body arrived. -/
inductive HttpAttempt where
  | doFail (errMsg : String)
  | resp (status : Nat) (body : String)
deriving DecidableEq

/-- How InvokeExchange classifies one attempt: `app` is its first (application
error) result, `transport` its second (retry-worthy) result, `proceed` means
the status was accepted and decoding continues (rpc.go:936-991), `deleteOk`
the early nil,nil return for an accepted DELETE (rpc.go:934-935). -/
inductive InvokeOutcome where
  | app (msg : String)
  | transport (msg : String)
  | proceed (body : String)
  | deleteOk
deriving DecidableEq

def InvokeOutcome.isApp : InvokeOutcome → Bool
  | InvokeOutcome.app _ => true
  | _ => false

def InvokeOutcome.isTransport : InvokeOutcome → Bool
  | InvokeOutcome.transport _ => true
  | _ => false

/-- The unexpected-status message of rpc.go:929-933; the response body is its
final piece. -/
def statusMsg (method url : String) (status : Nat) (body : String) : String :=
  (("Invocation of ") ++ method ++ (" at ") ++ url ++
      (" failed invoking HTTP request, status: ") ++ toString status ++ (", response: ")) ++
    body

/-- The request-failure message of rpc.go:904-906. -/
def doFailMsg (method url errMsg : String) : String :=
  (("Invocation of ") ++ method ++ (" at ") ++ url ++
      (" failed invoking HTTP request, error: ")) ++ errMsg

/-- Models the response handling of InvokeExchange (rpc.go:923-935): a 500
whose body contains "timed out" is reclassified as transport (the message there
formats the Do error, which is nil at that point, hence the empty final piece);
then GET expects 200 or 404, PUT/POST/PATCH expect 201, DELETE expects 204, any
other status is an application error carrying the body; an accepted DELETE
returns immediately and every other accepted response goes on to decode.  The
body-read error branch at rpc.go:914 tests err (always nil there) instead of
readErr and is dead code, so a read failure cannot surface. -/
def classifyResponse (method url : String) (status : Nat) (body : String) : InvokeOutcome :=
  if status = 500 ∧ strContains body ("timed out") = true then
    InvokeOutcome.transport (doFailMsg method url (""))
  else if method = "GET" ∧ ¬(status = 200 ∨ status = 404) then
    InvokeOutcome.app (statusMsg method url status body)
  else if (method = "PUT" ∨ method = "POST" ∨ method = "PATCH") ∧ ¬status = 201 then
    InvokeOutcome.app (statusMsg method url status body)
  else if method = "DELETE" ∧ ¬status = 204 then
    InvokeOutcome.app (statusMsg method url status body)
  else if method = "DELETE" then InvokeOutcome.deleteOk
  else InvokeOutcome.proceed body

/-- Models the error classification of InvokeExchange for one attempt
(rpc.go:902-935): a failure of httpClient.Do is transport exactly when
isTimeout matches its message, and a completed response is classified by
classifyResponse. -/
def invokeClassify (method url : String) (attempt : HttpAttempt) : InvokeOutcome :=
  match attempt with
  | HttpAttempt.doFail m =>
    if isTimeout m = true then InvokeOutcome.transport (doFailMsg method url m)
    else InvokeOutcome.app (doFailMsg method url m)
  | HttpAttempt.resp status body => classifyResponse method url status body

/-- Models the request-body construction (rpc.go:880-887): the body is the
marshalled params when params is non-nil, else empty. -/
def requestBody (params : Option String) : String :=
  match params with
  | none => ""
  | some j => j

/-- Models the request headers attached by InvokeExchange (rpc.go:891-898):
Accept always; Content-Type exactly when the method is not GET (regardless of
whether a body is present); Basic Authorization exactly when both user and
password are non-empty.  Note rpc.go:897 concatenates user:pw without base64
encoding. -/
def invokeHeaders (method user pw : String) : List (String × String) :=
  [(("Accept"), ("application/json"))] ++
    (if method ≠ "GET" then [(("Content-Type"), ("application/json"))] else []) ++
    (if user ≠ "" ∧ pw ≠ "" then
      [(("Authorization"), ("Basic ") ++ user ++ (":") ++ pw)]
    else [])

/-! ### The 10-second retry loops (rpc.go:441-455, 648-655, 722-729, 846-853).

Each lookup function loops: a non-nil first (application) error returns at
once, a non-nil second (transport) error sleeps 10 seconds and reissues the
request, and a success is handed to the response handler of the function.  The loop
is modelled with fuel counting iterations: `none` means the loop is still
running after that many iterations. -/

/-- One InvokeExchange call as the loops see it: (err, tpErr, response). -/
inductive ExchCall (α : Type) where
  | appErr (msg : String)
  | tpErr (msg : String)
  | ok (v : α)

def ExchCall.isTp {α : Type} : ExchCall α → Bool
  | ExchCall.tpErr _ => true
  | _ => false

/-- The shared retry loop over a stream of call outcomes. -/
def retryLoop {α β : Type} (calls : Nat → ExchCall α) (handle : α → GoResult β) :
    Nat → Option (GoResult β)
  | 0 => none
  | fuel + 1 =>
    match calls 0 with
    | ExchCall.appErr m => some (GoResult.err m)
    | ExchCall.tpErr _ => retryLoop (fun i => calls (i + 1)) handle fuel
    | ExchCall.ok v => some (handle v)

/-- Models the loop of GetWorkload (rpc.go:648-655): version validation happens
before the loop, then the loop retries transport errors forever. -/
def GetWorkloadLoop (wVersion : String)
    (calls : Nat → ExchCall (List WorkloadDefinition)) (fuel : Nat) :
    Option (GoResult (Option WorkloadDefinition)) :=
  match getSearchVersion wVersion with
  | Except.error e => some (GoResult.err e)
  | Except.ok sv => retryLoop calls (fun defs => processWorkloads sv wVersion defs) fuel

/-- Models the loop of GetMicroservice (rpc.go:722-729). -/
def GetMicroserviceLoop (mVersion : String)
    (calls : Nat → ExchCall (List MicroserviceDefinition)) (fuel : Nat) :
    Option (GoResult (Option MicroserviceDefinition)) :=
  match getSearchVersion mVersion with
  | Except.error e => some (GoResult.err e)
  | Except.ok sv => retryLoop calls (fun defs => processMicroservices sv mVersion defs) fuel

/-- Models the success handling of GetOrganization (rpc.go:854-862): look the
org up in the response map, a missing key is an application error. -/
def handleOrganization (org : String) (orgs : List (String × Organization)) :
    GoResult Organization :=
  match orgs.lookup org with
  | none => GoResult.err (("organization ") ++ org ++ (" not found"))
  | some o => GoResult.ok o

/-- Models the loop of GetOrganization (rpc.go:846-853). -/
def GetOrganizationLoop (org : String)
    (calls : Nat → ExchCall (List (String × Organization))) (fuel : Nat) :
    Option (GoResult Organization) :=
  retryLoop calls (handleOrganization org) fuel

/-- Models the success handling of GetEthereumClient (rpc.go:449-453): Go map
indexing with a missing key yields the zero BlockchainDef, whose Details is
the empty string. -/
def handleEthereumClient (chainName : String)
    (blockchains : List (String × BlockchainDef)) : GoResult String :=
  match blockchains.lookup chainName with
  | none => GoResult.ok ("")
  | some bd => GoResult.ok bd.details

/-- Models the loop of GetEthereumClient (rpc.go:441-455). -/
def GetEthereumClientLoop (chainName : String)
    (calls : Nat → ExchCall (List (String × BlockchainDef))) (fuel : Nat) :
    Option (GoResult String) :=
  retryLoop calls (handleEthereumClient chainName) fuel

/-! ### The method→status matrix of the spec, for comparison with classifyResponse
(this one definition follows the words of the spec, not the source). -/

/-- Follows the spec: GET → 200 ∨ 404; PUT|POST|PATCH → 201; DELETE → 204. -/
def statusMatrix (method : String) (status : Nat) : Bool :=
  if method = "GET" then status == 200 || status == 404
  else if method = "PUT" ∨ method = "POST" ∨ method = "PATCH" then status == 201
  else if method = "DELETE" then status == 204
  else true

/-! ### Concrete definitions used by the claim evaluations. -/

/-- A workload definition carrying version 9.0.0. -/
def wNine : WorkloadDefinition :=
  ⟨("o"), ("l"), ("d"), ("wurl"), ("9.0.0"), ("amd64"), (""), [], [],
    [⟨("dep"), ("sig"), ("tor")⟩], ("")⟩

/-- A workload definition carrying version 10.0.0. -/
def wTen : WorkloadDefinition :=
  ⟨("o"), ("l"), ("d"), ("wurl"), ("10.0.0"), ("amd64"), (""), [], [],
    [⟨("dep"), ("sig"), ("tor")⟩], ("")⟩

/-- A microservice definition carrying version 9.0.0. -/
def mNine : MicroserviceDefinition :=
  ⟨("o"), ("l"), ("d"), ("msurl"), ("9.0.0"), ("amd64"), ("single"), (""),
    ⟨("v"), ("f")⟩, [], [⟨("dep"), ("sig"), ("tor")⟩], ("")⟩

/-- A microservice definition carrying version 10.0.0. -/
def mTen : MicroserviceDefinition :=
  ⟨("o"), ("l"), ("d"), ("msurl"), ("10.0.0"), ("amd64"), ("single"), (""),
    ⟨("v"), ("f")⟩, [], [⟨("dep"), ("sig"), ("tor")⟩], ("")⟩

/-- A workload definition carrying version 1.0.0 (out of range [2.0.0,3.0.0)). -/
def wLow : WorkloadDefinition :=
  ⟨("o"), ("l"), ("d"), ("wurl"), ("1.0.0"), ("amd64"), (""), [], [],
    [⟨("dep"), ("sig"), ("tor")⟩], ("")⟩

/-- The declared dependency used by the C4 evaluation. -/
def apiSpecDep : APISpec := ⟨("msurl"), ("myorg"), ("[1.0.0,2.0.0)"), ("amd64")⟩

/-- A workload declaring one apiSpec dependency and one deployment element. -/
def wWithDep : WorkloadDefinition :=
  ⟨("o"), ("l"), ("d"), ("wurl"), ("1.0.0"), ("amd64"), (""), [apiSpecDep], [],
    [⟨("dep"), ("sig"), ("tor")⟩], ("")⟩

/-- A workload whose deployment array is empty. -/
def wNoDeploy : WorkloadDefinition :=
  ⟨("o"), ("l"), ("d"), ("wurl"), ("1.0.0"), ("amd64"), (""), [], [], [], ("")⟩

/-- The range [0.0.0, INFINITY). -/
def range0inf : VersionRange := ⟨[0, 0, 0], none, true, false⟩

/-! ### Helper lemmas. -/

theorem strCodes_append (a b : String) : strCodes (a ++ b) = strCodes a ++ strCodes b := by
  cases a with
  | mk da =>
    cases b with
    | mk db =>
      show (da ++ db).map (fun c => c.toNat) =
        da.map (fun c => c.toNat) ++ db.map (fun c => c.toNat)
      exact List.map_append _ _ _

theorem isPrefixN_self (l : List Nat) : isPrefixN l l = true := by
  induction l with
  | nil => rfl
  | cons a t ih => simp [isPrefixN, ih]

theorem isSubstrN_append_self (pre pat : List Nat) : isSubstrN pat (pre ++ pat) = true := by
  induction pre with
  | nil =>
    cases pat with
    | nil => rfl
    | cons a t => simp [isSubstrN, isPrefixN_self]
  | cons c rest ih => simp [isSubstrN, ih]

/-- A string contains its own final piece. -/
theorem strContains_append (pre pat : String) : strContains (pre ++ pat) pat = true := by
  show isSubstrN (strCodes pat) (strCodes (pre ++ pat)) = true
  rw [strCodes_append]
  exact isSubstrN_append_self _ _

/-- The retry loop never returns under an all-transport call stream. -/
theorem retryLoop_allTp {α β : Type} (handle : α → GoResult β) :
    ∀ (fuel : Nat) (calls : Nat → ExchCall α), (∀ i, (calls i).isTp = true) →
      retryLoop calls handle fuel = none := by
  intro fuel
  induction fuel with
  | zero => intro calls _; rfl
  | succ n ih =>
    intro calls h
    have h0 := h 0
    cases hc : calls 0 with
    | appErr m => rw [hc] at h0; exact absurd h0 (by simp [ExchCall.isTp])
    | ok v => rw [hc] at h0; exact absurd h0 (by simp [ExchCall.isTp])
    | tpErr m =>
      show retryLoop calls handle (n + 1) = none
      simp only [retryLoop, hc]
      exact ih (fun i => calls (i + 1)) (fun i => h (i + 1))

/-- Every error the retry loop returns originates from an application-error
outcome or from the response handler, never from a transport outcome. -/
theorem retryLoop_err_origin {α β : Type} (handle : α → GoResult β) :
    ∀ (fuel : Nat) (calls : Nat → ExchCall α) (m : String),
      retryLoop calls handle fuel = some (GoResult.err m) →
      (∃ i, calls i = ExchCall.appErr m) ∨
        (∃ i, ∃ v, calls i = ExchCall.ok v ∧ handle v = GoResult.err m) := by
  intro fuel
  induction fuel with
  | zero => intro calls m h; exact absurd h (by simp [retryLoop])
  | succ n ih =>
    intro calls m h
    cases hc : calls 0 with
    | appErr s =>
      simp only [retryLoop, hc, Option.some.injEq] at h
      have hsm : s = m := by
        cases h
        rfl
      left
      exact ⟨0, by rw [hc, hsm]⟩
    | tpErr s =>
      simp only [retryLoop, hc] at h
      rcases ih (fun i => calls (i + 1)) m h with ⟨i, hi⟩ | ⟨i, v, hi, hv⟩
      · exact Or.inl ⟨i + 1, hi⟩
      · exact Or.inr ⟨i + 1, v, hi, hv⟩
    | ok v =>
      simp only [retryLoop, hc, Option.some.injEq] at h
      right
      exact ⟨0, v, hc, h⟩

/-! ### The claims. -/

/-- C1.  The claim says GetWorkload and GetMicroservice return the definition
whose version is the maximum in segment-wise numeric dotted-version order among
the in-range candidates.  The code orders candidates with strings.Compare
(rpc.go:690, 761), which is lexicographic: with versions 9.0.0 and 10.0.0 both
inside [0.0.0,INFINITY), both functions return the 9.0.0 definition, although
10.0.0 is in range and numerically greater (the selection is insensitive to the
map-iteration order, since only a strictly greater string replaces the
running maximum). -/
theorem C1_highest_in_range_is_lexicographic_not_numeric :
    GetWorkloadOnce ("[0.0.0,INFINITY)") [wNine, wTen] = GoResult.ok (some wNine) ∧
    GetWorkloadOnce ("[0.0.0,INFINITY)") [wTen, wNine] = GoResult.ok (some wNine) ∧
    GetMicroserviceOnce ("[0.0.0,INFINITY)") [mNine, mTen] = GoResult.ok (some mNine) ∧
    Is_within_range range0inf ("10.0.0") = some true ∧
    cmpSegs [9, 0, 0] [10, 0, 0] = Ordering.lt := by
  refine ⟨?_, ?_, ?_, ?_, ?_⟩ <;> decide

/-- C2.  The claim says both functions return a nil definition with no error
whenever the version of no fetched definition lies in the range.  In the code only
the empty-response check of GetWorkload (rpc.go:671-674) returns nil; when
definitions were fetched but none is in range, GetWorkload returns a non-nil
pointer to the zero-valued definition (rpc.go:697), and GetMicroservice has no
empty-response check at all, so it returns the non-nil zero value even for an
empty response (rpc.go:768). -/
theorem C2_out_of_range_returns_zero_value_not_nil :
    GetMicroserviceOnce ("[1.0.0,2.0.0)") [] = GoResult.ok (some zeroMicroserviceDefinition) ∧
    GetWorkloadOnce ("[2.0.0,3.0.0)") [wLow] = GoResult.ok (some zeroWorkloadDefinition) ∧
    ¬ GetMicroserviceOnce ("[1.0.0,2.0.0)") [] = GoResult.ok none ∧
    ¬ GetWorkloadOnce ("[2.0.0,3.0.0)") [wLow] = GoResult.ok none := by
  refine ⟨?_, ?_, ?_, ?_⟩ <;> decide

/-- C4.  The claim says WorkloadResolver fails with an unresolved-dependency
error when no microservice satisfies the range a dependency declares.  Because
GetMicroservice never returns a nil definition from its range path (see C2),
the ms == nil guard at rpc.go:806 never fires: with a workload declaring one
dependency and an Exchange holding no microservice at all, WorkloadResolver
returns the dependency list with no error. -/
theorem C4_missing_dependency_not_detected :
    WorkloadResolverOnce ("") [wWithDep] (fun _ => []) =
      GoResult.ok [APISpecification_Factory ("msurl") ("myorg") ("[1.0.0,2.0.0)") ("amd64")] ∧
    GetMicroserviceForRange ⟨[1, 0, 0], some [2, 0, 0], true, false⟩ [] =
      GoResult.ok (some zeroMicroserviceDefinition) := by
  refine ⟨?_, ?_⟩ <;> decide

/-- C3.  With a specific version (a valid version string that is not a range
expression), GetWorkload and GetMicroservice return the definition exactly when
the response holds exactly one record, and return the "expecting 1 result …
got N" error whenever it holds zero or more than one. -/
theorem C3_specific_version_demands_exactly_one (v : String)
    (hv : IsVersionString v = true) (hne : IsVersionExpression v = false) :
    (∀ d : WorkloadDefinition, GetWorkloadOnce v [d] = GoResult.ok (some d)) ∧
    (∀ defs : List WorkloadDefinition, ¬ defs.length = 1 →
      GetWorkloadOnce v defs =
        GoResult.err (("expecting 1 result in GET workloads response, got ") ++
          toString defs.length)) ∧
    (∀ d : MicroserviceDefinition, GetMicroserviceOnce v [d] = GoResult.ok (some d)) ∧
    (∀ defs : List MicroserviceDefinition, ¬ defs.length = 1 →
      GetMicroserviceOnce v defs =
        GoResult.err (("expecting 1 result in GET microservces response, got ") ++
          toString defs.length)) := by
  have hvne : ¬ v = "" := by
    intro h
    subst h
    exact absurd hv (by decide)
  have hsv : getSearchVersion v = Except.ok v := by
    simp [getSearchVersion, hvne, hne, hv]
  refine ⟨?_, ?_, ?_, ?_⟩
  · intro d
    simp [GetWorkloadOnce, hsv, processWorkloads, hvne]
  · intro defs hlen
    rcases defs with _ | ⟨d1, rest⟩
    · simp [GetWorkloadOnce, hsv, processWorkloads, hvne]
    · rcases rest with _ | ⟨d2, rest2⟩
      · exact absurd rfl hlen
      · simp [GetWorkloadOnce, hsv, processWorkloads, hvne]
  · intro d
    simp [GetMicroserviceOnce, hsv, processMicroservices, hvne]
  · intro defs hlen
    rcases defs with _ | ⟨d1, rest⟩
    · simp [GetMicroserviceOnce, hsv, processMicroservices, hvne]
    · rcases rest with _ | ⟨d2, rest2⟩
      · exact absurd rfl hlen
      · simp [GetMicroserviceOnce, hsv, processMicroservices, hvne]

/-- Witness for C3 at the concrete version 1.2.3. -/
theorem C3_specific_version_demands_exactly_one_witness :
    GetWorkloadOnce ("1.2.3") [wNine] = GoResult.ok (some wNine) :=
  (C3_specific_version_demands_exactly_one ("1.2.3") (by decide) (by decide)).1 wNine

/-- C9.  Whenever the workload fetched by WorkloadResolver has a deployment
(Workloads) array of length other than one, the resolver returns the
"expecting 1 element in the workloads array" error (rpc.go:785-786), and a
dependency list is returned only when that length is exactly one. -/
theorem C9_resolver_demands_single_deployment (wv : String)
    (wDefs : List WorkloadDefinition) (msDefs : APISpec → List MicroserviceDefinition)
    (w : WorkloadDefinition)
    (hfetch : GetWorkloadOnce wv wDefs = GoResult.ok (some w)) :
    (¬ w.workloads.length = 1 →
      WorkloadResolverOnce wv wDefs msDefs = GoResult.err (workloadsArityMsg w)) ∧
    (∀ l, WorkloadResolverOnce wv wDefs msDefs = GoResult.ok l →
      w.workloads.length = 1) := by
  constructor
  · intro hlen
    simp [WorkloadResolverOnce, hfetch, hlen]
  · intro l hok
    by_cases hlen : w.workloads.length = 1
    · exact hlen
    · simp [WorkloadResolverOnce, hfetch, hlen] at hok

/-- Witness for C9: a fetched workload with an empty deployment array makes the
resolver error. -/
theorem C9_resolver_demands_single_deployment_witness :
    WorkloadResolverOnce ("") [wNoDeploy] (fun _ => []) =
      GoResult.err (workloadsArityMsg wNoDeploy) :=
  (C9_resolver_demands_single_deployment ("") [wNoDeploy] (fun _ => []) wNoDeploy
    (by decide)).1 (by decide)

/-- C10.  When the Exchange returns no workload definitions for a range query,
GetWorkload returns a nil definition with no error (rpc.go:671-674), and
WorkloadResolver then reads workload.Workloads through that nil pointer
(rpc.go:785) — a nil dereference (nilPanic) instead of an error return. -/
theorem C10_resolver_dereferences_nil_workload (wv : String)
    (msDefs : APISpec → List MicroserviceDefinition)
    (h : getSearchVersion wv = Except.ok ("")) :
    GetWorkloadOnce wv [] = GoResult.ok none ∧
    WorkloadResolverOnce wv [] msDefs = GoResult.nilPanic := by
  have h1 : GetWorkloadOnce wv [] = GoResult.ok none := by
    simp [GetWorkloadOnce, h, processWorkloads]
  exact ⟨h1, by simp [WorkloadResolverOnce, h1]⟩

/-- Witness for C10 at the concrete range [1.0.0,2.0.0). -/
theorem C10_resolver_dereferences_nil_workload_witness :
    GetWorkloadOnce ("[1.0.0,2.0.0)") [] = GoResult.ok none ∧
    WorkloadResolverOnce ("[1.0.0,2.0.0)") [] (fun _ => []) = GoResult.nilPanic :=
  C10_resolver_dereferences_nil_workload ("[1.0.0,2.0.0)") (fun _ => []) (by rfl)

/-- C8.  GetWorkload, GetMicroservice, GetOrganization and GetEthereumClient
never surface a transport error: under an all-transport call stream each loop
runs forever (none for every fuel), and every error the shared retry loop
returns originates from an application-error outcome or from the response
handler, never from a transport outcome. -/
theorem C8_transport_errors_retried_forever :
    (∀ (wv sv : String) (calls : Nat → ExchCall (List WorkloadDefinition)),
      getSearchVersion wv = Except.ok sv → (∀ i, (calls i).isTp = true) →
      ∀ fuel, GetWorkloadLoop wv calls fuel = none) ∧
    (∀ (mv sv : String) (calls : Nat → ExchCall (List MicroserviceDefinition)),
      getSearchVersion mv = Except.ok sv → (∀ i, (calls i).isTp = true) →
      ∀ fuel, GetMicroserviceLoop mv calls fuel = none) ∧
    (∀ (org : String) (calls : Nat → ExchCall (List (String × Organization))),
      (∀ i, (calls i).isTp = true) →
      ∀ fuel, GetOrganizationLoop org calls fuel = none) ∧
    (∀ (chainName : String) (calls : Nat → ExchCall (List (String × BlockchainDef))),
      (∀ i, (calls i).isTp = true) →
      ∀ fuel, GetEthereumClientLoop chainName calls fuel = none) ∧
    (∀ (α β : Type) (calls : Nat → ExchCall α) (handle : α → GoResult β)
      (fuel : Nat) (m : String),
      retryLoop calls handle fuel = some (GoResult.err m) →
      (∃ i, calls i = ExchCall.appErr m) ∨
        (∃ i, ∃ v, calls i = ExchCall.ok v ∧ handle v = GoResult.err m)) := by
  refine ⟨?_, ?_, ?_, ?_, ?_⟩
  · intro wv sv calls hsv htp fuel
    simp only [GetWorkloadLoop, hsv]
    exact retryLoop_allTp _ fuel calls htp
  · intro mv sv calls hsv htp fuel
    simp only [GetMicroserviceLoop, hsv]
    exact retryLoop_allTp _ fuel calls htp
  · intro org calls htp fuel
    exact retryLoop_allTp _ fuel calls htp
  · intro chainName calls htp fuel
    exact retryLoop_allTp _ fuel calls htp
  · intro α β calls handle fuel m h
    exact retryLoop_err_origin handle fuel calls m h

/-- Witness for C8: a permanently timing-out transport never terminates
GetOrganization. -/
theorem C8_transport_errors_retried_forever_witness :
    GetOrganizationLoop ("myorg") (fun _ => ExchCall.tpErr ("i/o timeout")) 7 = none :=
  C8_transport_errors_retried_forever.2.2.1 ("myorg")
    (fun _ => ExchCall.tpErr ("i/o timeout")) (fun _ => rfl) 7

/-- C5 counterexample.  The claim says any status outside the matrix yields an
application error; but a GET completing with status 500 and a body containing
"timed out" yields a transport error (rpc.go:924-926), not an application
error. -/
theorem C5_counterexample_500_timed_out :
    statusMatrix ("GET") 500 = false ∧
    (classifyResponse ("GET") ("u") 500 ("request timed out")).isApp = false ∧
    (classifyResponse ("GET") ("u") 500 ("request timed out")).isTransport = true := by
  refine ⟨?_, ?_, ?_⟩ <;> decide

/-- C5 (amended).  For the five methods of the matrix, unless the response is a
500 whose body contains "timed out" (which yields a transport error instead),
the status is accepted exactly per GET → 200 ∨ 404, PUT/POST/PATCH → 201,
DELETE → 204 — an accepted response proceeds to decoding (or returns at once
for DELETE) — and any other status yields an application error whose message
carries the response body. -/
theorem C5_status_matrix_with_timeout_exception (method url : String) (status : Nat)
    (body : String)
    (hm : method = "GET" ∨ method = "PUT" ∨ method = "POST" ∨ method = "PATCH" ∨
      method = "DELETE")
    (hnt : ¬(status = 500 ∧ strContains body ("timed out") = true)) :
    (statusMatrix method status = true →
      classifyResponse method url status body = InvokeOutcome.proceed body ∨
      classifyResponse method url status body = InvokeOutcome.deleteOk) ∧
    (statusMatrix method status = false →
      classifyResponse method url status body =
        InvokeOutcome.app (statusMsg method url status body) ∧
      strContains (statusMsg method url status body) body = true) := by
  have hbody : strContains (statusMsg method url status body) body = true := by
    unfold statusMsg
    exact strContains_append _ _
  rcases hm with h | h | h | h | h <;> subst h
  · by_cases hs : status = 200 ∨ status = 404
    · have hmx : statusMatrix ("GET") status = true := by
        simp [statusMatrix, hs]
      have hcl : classifyResponse ("GET") url status body = InvokeOutcome.proceed body := by
        simp [classifyResponse, hnt, hs]
      exact ⟨fun _ => Or.inl hcl,
        fun hf => absurd (hmx.symm.trans hf) (by decide)⟩
    · have hmx : statusMatrix ("GET") status = false := by
        simp [statusMatrix]
        omega
      have hcl : classifyResponse ("GET") url status body =
          InvokeOutcome.app (statusMsg ("GET") url status body) := by
        simp [classifyResponse, hnt, hs]
      exact ⟨fun ht => absurd (hmx.symm.trans ht) (by decide), fun _ => ⟨hcl, hbody⟩⟩
  · by_cases hs : status = 201
    · have hmx : statusMatrix ("PUT") status = true := by
        simp [statusMatrix, hs]
      have hcl : classifyResponse ("PUT") url status body = InvokeOutcome.proceed body := by
        simp [classifyResponse, hnt, hs]
      exact ⟨fun _ => Or.inl hcl,
        fun hf => absurd (hmx.symm.trans hf) (by decide)⟩
    · have hmx : statusMatrix ("PUT") status = false := by
        simp [statusMatrix]
        omega
      have hcl : classifyResponse ("PUT") url status body =
          InvokeOutcome.app (statusMsg ("PUT") url status body) := by
        simp [classifyResponse, hnt, hs]
      exact ⟨fun ht => absurd (hmx.symm.trans ht) (by decide), fun _ => ⟨hcl, hbody⟩⟩
  · by_cases hs : status = 201
    · have hmx : statusMatrix ("POST") status = true := by
        simp [statusMatrix, hs]
      have hcl : classifyResponse ("POST") url status body = InvokeOutcome.proceed body := by
        simp [classifyResponse, hnt, hs]
      exact ⟨fun _ => Or.inl hcl,
        fun hf => absurd (hmx.symm.trans hf) (by decide)⟩
    · have hmx : statusMatrix ("POST") status = false := by
        simp [statusMatrix]
        omega
      have hcl : classifyResponse ("POST") url status body =
          InvokeOutcome.app (statusMsg ("POST") url status body) := by
        simp [classifyResponse, hnt, hs]
      exact ⟨fun ht => absurd (hmx.symm.trans ht) (by decide), fun _ => ⟨hcl, hbody⟩⟩
  · by_cases hs : status = 201
    · have hmx : statusMatrix ("PATCH") status = true := by
        simp [statusMatrix, hs]
      have hcl : classifyResponse ("PATCH") url status body = InvokeOutcome.proceed body := by
        simp [classifyResponse, hnt, hs]
      exact ⟨fun _ => Or.inl hcl,
        fun hf => absurd (hmx.symm.trans hf) (by decide)⟩
    · have hmx : statusMatrix ("PATCH") status = false := by
        simp [statusMatrix]
        omega
      have hcl : classifyResponse ("PATCH") url status body =
          InvokeOutcome.app (statusMsg ("PATCH") url status body) := by
        simp [classifyResponse, hnt, hs]
      exact ⟨fun ht => absurd (hmx.symm.trans ht) (by decide), fun _ => ⟨hcl, hbody⟩⟩
  · by_cases hs : status = 204
    · have hmx : statusMatrix ("DELETE") status = true := by
        simp [statusMatrix, hs]
      have hcl : classifyResponse ("DELETE") url status body = InvokeOutcome.deleteOk := by
        simp [classifyResponse, hnt, hs]
      exact ⟨fun _ => Or.inr hcl,
        fun hf => absurd (hmx.symm.trans hf) (by decide)⟩
    · have hmx : statusMatrix ("DELETE") status = false := by
        simp [statusMatrix]
        omega
      have hcl : classifyResponse ("DELETE") url status body =
          InvokeOutcome.app (statusMsg ("DELETE") url status body) := by
        simp [classifyResponse, hnt, hs]
      exact ⟨fun ht => absurd (hmx.symm.trans ht) (by decide), fun _ => ⟨hcl, hbody⟩⟩

/-- Witness for C5 (amended): a GET completing with 403 yields an application
error carrying the body. -/
theorem C5_status_matrix_with_timeout_exception_witness :
    classifyResponse ("GET") ("u") 403 ("forbidden") =
      InvokeOutcome.app (statusMsg ("GET") ("u") 403 ("forbidden")) ∧
    strContains (statusMsg ("GET") ("u") 403 ("forbidden")) ("forbidden") = true :=
  (C5_status_matrix_with_timeout_exception ("GET") ("u") 403 ("forbidden")
    (Or.inl rfl) (by decide)).2 (by decide)

/-- C6 counterexample.  The claim says connection refused is transport-
classified; but isTimeout does not match a connection-refused message, so the
failure is returned as the first (application) error result. -/
theorem C6_counterexample_connection_refused :
    (invokeClassify ("GET") ("u")
        (HttpAttempt.doFail ("dial tcp 10.0.0.1:443: connect: connection refused"))).isTransport
      = false ∧
    (invokeClassify ("GET") ("u")
        (HttpAttempt.doFail ("dial tcp 10.0.0.1:443: connect: connection refused"))).isApp
      = true := by
  refine ⟨?_, ?_⟩ <;> decide

/-- C6 (amended).  InvokeExchange classifies a failure as transport exactly
when the request attempt itself failed with an error whose lower-cased message
contains both "time" and "out" (isTimeout, rpc.go:996-998), or the response
has status 500 with a body containing "timed out"; connection refused and DNS
failures carry neither marker and are application errors. -/
theorem C6_transport_is_exactly_timeout (method url : String) (attempt : HttpAttempt) :
    (invokeClassify method url attempt).isTransport = true ↔
      ((∃ m, attempt = HttpAttempt.doFail m ∧ isTimeout m = true) ∨
        (∃ body, attempt = HttpAttempt.resp 500 body ∧
          strContains body ("timed out") = true)) := by
  cases attempt with
  | doFail m =>
    by_cases ht : isTimeout m = true
    · simp [invokeClassify, ht, InvokeOutcome.isTransport]
    · simp [invokeClassify, ht, InvokeOutcome.isTransport]
  | resp st body =>
    by_cases h5 : st = 500 ∧ strContains body ("timed out") = true
    · obtain ⟨h5a, h5b⟩ := h5
      subst h5a
      simp [invokeClassify, classifyResponse, h5b, InvokeOutcome.isTransport]
    · have hcl : (classifyResponse method url st body).isTransport = false := by
        simp only [classifyResponse]
        rw [if_neg h5]
        split_ifs <;> rfl
      simp only [invokeClassify, hcl]
      constructor
      · intro hfalse
        exact absurd hfalse (by decide)
      · rintro (⟨m, hm, _⟩ | ⟨b, hb, hc⟩)
        · exact absurd hm (by simp)
        · have hst : st = 500 ∧ body = b := by
            constructor
            · exact (HttpAttempt.resp.injEq _ _ _ _).mp hb |>.1
            · exact (HttpAttempt.resp.injEq _ _ _ _).mp hb |>.2
          exact absurd ⟨hst.1, by rw [hst.2]; exact hc⟩ h5

/-- C7 counterexample.  The claim says requests with bodies carry
Content-Type; but a GET with a non-empty body (non-nil params) still lacks
Content-Type — the header is keyed on the method (rpc.go:893-895), not on body
presence. -/
theorem C7_counterexample_get_with_body :
    ¬ requestBody (some ("[1,2]")) = ("") ∧
    ¬ (("Content-Type"), ("application/json")) ∈ invokeHeaders ("GET") ("alice") ("pw") := by
  refine ⟨?_, ?_⟩ <;> decide

/-- C7 (amended).  Every request carries Accept: application/json;
Content-Type: application/json is attached exactly when the method is not GET
(regardless of body presence); and the Basic Authorization header is attached
exactly when both user and password are non-empty. -/
theorem C7_headers (method user pw : String) :
    ((("Accept"), ("application/json")) ∈ invokeHeaders method user pw) ∧
    (((("Content-Type"), ("application/json")) ∈ invokeHeaders method user pw) ↔
      ¬ method = "GET") ∧
    (((("Authorization"), (("Basic ") ++ user ++ (":") ++ pw)) ∈
        invokeHeaders method user pw) ↔
      (¬ user = "" ∧ ¬ pw = "")) := by
  have nCA : ¬ (("Content-Type" : String) = "Accept") := by decide
  have nAA : ¬ (("Authorization" : String) = "Accept") := by decide
  have nAC : ¬ (("Authorization" : String) = "Content-Type") := by decide
  by_cases hm : method = "GET" <;> by_cases hu : user = "" <;> by_cases hp : pw = "" <;>
    simp [invokeHeaders, hm, hu, hp, Prod.ext_iff, nCA, nAA, nAC]
